import Mathlib

/-!
# QKart storefront backend: formal model of the cart/checkout and address domain

Shallow embedding of the QKart backend's user/address/cart/checkout domain.

Sources embedded here:
* `user.model.js` — the Mongoose `userSchema` (email normalisation, wallet
  default, address subdocuments), `isEmailTaken`, `hasSetNonDefaultAddress`;
* `user.controller.js` — `getUser`, `setAddress`, `getAddresses`,
  `addAddress`, `deleteAddress`;
* `frontend/src/components/Cart.js` — `calculateTotal`;
* the Checkout Engine is not present in the provided sources; it is modelled
  from the specification (§4.4) on top of the source-embedded helpers and is
  marked `Modelled from the spec:` below.

Mutating handlers are modelled as pure functions from the fetched record and
the request to `Except ApiError` of the updated record: a returned `.error`
means the handler threw before any `save()`, so the persisted state is
unchanged.
-/

namespace QKart

/-- An address subdocument of `userSchema.addresses` (`user.model.js`):
a Mongo-assigned stable identifier `_id` and the `address` text
(`trim: true` is applied by the schema on save). -/
structure Address where
  _id : Nat
  address : String
deriving Repr, DecidableEq

/-- A user document per `userSchema` (`user.model.js`): `name`, `email`
(trimmed, lowercased, unique), `password`, `walletMoney` (`default: 500`),
the legacy single `address` string (`default: config.default_address`,
i.e. the `"ADDRESS_NOT_SET"` sentinel), and the `addresses` subdocument
array.  `addresses` is `Option (List Address)` because the controllers
guard for the field being absent (`user.addresses || []`). -/
structure User where
  _id : Nat
  name : String
  email : String
  password : String
  walletMoney : Int
  address : String
  addresses : Option (List Address)
deriving Repr, DecidableEq

/-- The saved-address collection of a user, as the controllers read it:
`user.addresses || []`. -/
def User.savedAddresses (u : User) : List Address :=
  u.addresses.getD []

/-- The domain errors thrown by the controllers via `ApiError`,
tagged with the HTTP status used at each throw site. -/
inductive ApiError where
  | notFound (msg : String)
  | forbidden (msg : String)
  | badRequest (msg : String)
deriving Repr, DecidableEq

/-- Embeds `userSchema.methods.hasSetNonDefaultAddress` (`user.model.js`):
`return user.addresses && user.addresses.length > 0`.  An absent
`addresses` field is falsy in JS, hence `false` here. -/
def hasSetNonDefaultAddress (user : User) : Bool :=
  match user.addresses with
  | none => false
  | some l => decide (l.length > 0)

/-- A product from the catalog (`Cart.js` typedef / `importData.js`). -/
structure Product where
  _id : String
  name : String
  category : String
  cost : Int
  rating : Nat
  image : String
deriving Repr, DecidableEq

/-- A cart line item as rendered by `Cart.js`: the product id, the
quantity, and the product object joined from the catalog. -/
structure CartItem where
  productId : String
  quantity : Int
  product : Product
deriving Repr, DecidableEq

/-- Embeds `calculateTotal` from `frontend/src/components/Cart.js`:
`this.state.items.length ? this.state.items.reduce((total, item) =>
total + item.product.cost * item.quantity, 0) : 0`. -/
def calculateTotal (items : List CartItem) : Int :=
  if items.length ≠ 0 then
    items.foldl (fun total item => total + item.product.cost * item.quantity) 0
  else 0

/-- Model of JS `String.prototype.trim` (and the Mongoose `trim: true`
setter): strip leading and trailing whitespace.  (Stated over the
character list so that the kernel can evaluate it on literals.) -/
def jsTrim (s : String) : String :=
  String.mk (((s.toList.dropWhile Char.isWhitespace).reverse.dropWhile
      Char.isWhitespace).reverse)

/-- Model of JS `String.prototype.toLowerCase` (and the Mongoose
`lowercase: true` setter) on the ASCII data this system stores. -/
def jsToLower (s : String) : String :=
  String.mk (s.toList.map Char.toLower)

/-- Result of the `getUser` controller: either the whole user document or
the `{ address: ... }` projection when `q=address`. -/
inductive GetUserResult where
  | full (u : User)
  | addressOnly (a : String)
deriving Repr, DecidableEq

/-- Embeds `getUser` from `user.controller.js`.  `userOpt` is the record the
service layer resolved for `req.params.userId` (`none` when absent);
`caller` is `req.user` set by the auth middleware; `qAddress` is whether
`req.query.q === "address"`.  Throws 404 when the data is absent, 403 when
`data.email != req.user.email`; otherwise responds with the projection. -/
def getUser (userOpt : Option User) (caller : User) (qAddress : Bool) :
    Except ApiError GetUserResult :=
  match userOpt with
  | none => .error (.notFound "User not found")
  | some data =>
    if data.email ≠ caller.email then
      .error (.forbidden "User not authorized to access this resource")
    else if qAddress then .ok (.addressOnly data.address)
    else .ok (.full data)

/-- Embeds `setAddress` from `user.controller.js` (legacy single-field address):
404 when the user is absent, 403 when `user.email != req.user.email`, else
`userService.setAddress(user, req.body.address)` overwrites the legacy
field; the handler responds with the new value. -/
def setAddress (userOpt : Option User) (caller : User) (newAddress : String) :
    Except ApiError (User × String) :=
  match userOpt with
  | none => .error (.notFound "User not found")
  | some user =>
    if user.email ≠ caller.email then
      .error (.forbidden "User not authorized to access this resource")
    else .ok ({ user with address := newAddress }, newAddress)

/-- Embeds `getAddresses` from `user.controller.js`: 404 when the user is absent,
403 when `user._id.toString() !== req.user._id.toString()`, otherwise
responds `{ addresses: user.addresses || [] }`. -/
def getAddresses (userOpt : Option User) (caller : User) :
    Except ApiError (List Address) :=
  match userOpt with
  | none => .error (.notFound "User not found")
  | some user =>
    if user._id ≠ caller._id then .error (.forbidden "User not found")
    else .ok user.savedAddresses

/-- Embeds `addAddress` from `user.controller.js`: 404 when the user is absent,
403 when `user._id.toString() !== req.user._id.toString()`, 400 when
`!req.body.address || req.body.address.length < 20` (the falsy check on
the empty string is subsumed by `"".length = 0 < 20`), else pushes
`{ address: req.body.address }` onto `user.addresses || []` and saves.
The schema (`user.model.js`) trims the text and Mongo assigns the fresh
subdocument identifier `newId` on save.  Returns the saved user. -/
def addAddress (userOpt : Option User) (caller : User) (newId : Nat)
    (address : String) : Except ApiError User :=
  match userOpt with
  | none => .error (.notFound "User not found")
  | some user =>
    if user._id ≠ caller._id then .error (.forbidden "User not found")
    else if address.length < 20 then
      .error (.badRequest "Address should be greater than 20 characters")
    else .ok { user with
      addresses := some (user.savedAddresses ++ [⟨newId, jsTrim address⟩]) }

/-- Embeds `user.addresses.findIndex(addr => addr._id.toString() === req.params.addressId)`
followed by `splice(addressIndex, 1)`, as one list operation: `none` when
`findIndex` returns `-1`, otherwise the list with the first
matching-identifier entry removed. -/
def spliceById (l : List Address) (addressId : Nat) : Option (List Address) :=
  match l.findIdx? (fun a => a._id == addressId) with
  | none => none
  | some i => some (l.eraseIdx i)

/-- Embeds `deleteAddress` from `user.controller.js`: 404 when the user is absent,
403 when `user._id.toString() !== req.user._id.toString()`, 404
`"Address to delete was not found"` when `findIndex` gives `-1`, otherwise
splices the found entry out and saves. -/
def deleteAddress (userOpt : Option User) (caller : User) (addressId : Nat) :
    Except ApiError User :=
  match userOpt with
  | none => .error (.notFound "User not found")
  | some user =>
    if user._id ≠ caller._id then .error (.forbidden "User not found")
    else
      match spliceById user.savedAddresses addressId with
      | none => .error (.notFound "Address to delete was not found")
      | some l => .ok { user with addresses := some l }

/-- Embeds `userSchema.statics.isEmailTaken` (`user.model.js`), with the store
interaction explicit: the argument is the outcome of
`this.findOne({email: email})` — `.ok` carries the found document (if
any), `.error` is a rejected promise from the store.  The source returns
`true` when a document was found, `false` when not, and — via its
`catch(err){ return false; }` — also `false` on any store error. -/
def isEmailTaken (storeResult : Except String (Option User)) : Bool :=
  match storeResult with
  | .ok result => if result.isSome then true else false
  | .error _ => false

/-- Embeds `findOne({email: email})` against an (in-memory) user collection:
the first document whose stored `email` field equals the query string
exactly. -/
def findOneByEmail (db : List User) (email : String) : Option User :=
  db.find? (fun u => u.email == email)

/-- The write-path normalisation the `userSchema` email field declares
(`user.model.js`): `trim: true` and `lowercase: true` are applied by
Mongoose before the document is stored. -/
def normalizeEmail (e : String) : String :=
  jsToLower (jsTrim e)

/-- Saving a new user document under `userSchema` (`user.model.js`): the
email is trimmed and lowercased by the schema setters, and the
`unique: true` index rejects a document whose stored email equals an
already-stored email. -/
def insertUser (db : List User) (u : User) : Except String (List User) :=
  let stored := { u with email := normalizeEmail u.email }
  if db.any (fun v => v.email == stored.email) then
    .error "E11000 duplicate key error"
  else .ok (db ++ [stored])

/-- Modelled from the spec: user creation at registration (the register
service is not in the provided sources).  The schema defaults in
`user.model.js` supply `walletMoney: 500` and the legacy `address`
sentinel `config.default_address = "ADDRESS_NOT_SET"` when the caller
does not specify them; the email is normalised by the schema setters. -/
def createUser (id : Nat) (name email password : String) : User :=
  { _id := id, name := name, email := normalizeEmail email,
    password := password, walletMoney := 500,
    address := "ADDRESS_NOT_SET", addresses := none }

/-- The reason a checkout is rejected (spec §4.4). -/
inductive RejectReason where
  | emptyCart
  | noAddress
  | insufficientBalance
deriving Repr, DecidableEq

/-- Outcome of a checkout attempt: the post-commit wallet balance on
success, or a rejection reason. -/
inductive CheckoutResult where
  | success (walletMoney : Int)
  | rejected (reason : RejectReason)
deriving Repr, DecidableEq

/-- The per-user state checkout reads and writes: the user document and
the user's cart line items. -/
structure CheckoutState where
  user : User
  cart : List CartItem
deriving Repr, DecidableEq

/-- Modelled from the spec: the Checkout Engine (§4.4) is not in the
provided sources.  In spec order: reject `EmptyCart` when the cart is
empty; reject `NoAddress` when `hasSetNonDefaultAddress` (embedded above
from `user.model.js`) is false; compute the total; reject
`InsufficientBalance` when `walletMoney < total`; otherwise atomically
debit the wallet by the total and empty the cart, returning the
post-commit balance.  A rejection returns the state unchanged. -/
def checkout (st : CheckoutState) : CheckoutResult × CheckoutState :=
  if st.cart.isEmpty then (.rejected .emptyCart, st)
  else if ¬ hasSetNonDefaultAddress st.user then (.rejected .noAddress, st)
  else
    let total := calculateTotal st.cart
    if st.user.walletMoney < total then (.rejected .insufficientBalance, st)
    else (.success (st.user.walletMoney - total),
          { user := { st.user with walletMoney := st.user.walletMoney - total },
            cart := [] })

/-- Modelled from the spec: the reachable per-user states of the system.
A user comes into existence by registration (`createUser`); the Cart
Mutation Engine (not in the provided sources) changes only the cart; the
Address Manager handlers (`setAddress`, `addAddress`, `deleteAddress`,
embedded above) rewrite the user's address fields; and the Checkout
Engine is the only operation that mutates `walletMoney` (spec §3). -/
inductive Reachable : CheckoutState → Prop
  | created (id : Nat) (name email password : String) :
      Reachable ⟨createUser id name email password, []⟩
  | cartStep (st : CheckoutState) (cart : List CartItem) :
      Reachable st → Reachable ⟨st.user, cart⟩
  | legacyAddressStep (st : CheckoutState) (caller : User) (text : String)
      (u : User) (s : String) :
      Reachable st → setAddress (some st.user) caller text = .ok (u, s) →
      Reachable ⟨u, st.cart⟩
  | addAddressStep (st : CheckoutState) (caller : User) (newId : Nat)
      (text : String) (u : User) :
      Reachable st → addAddress (some st.user) caller newId text = .ok u →
      Reachable ⟨u, st.cart⟩
  | deleteAddressStep (st : CheckoutState) (caller : User) (addressId : Nat)
      (u : User) :
      Reachable st → deleteAddress (some st.user) caller addressId = .ok u →
      Reachable ⟨u, st.cart⟩
  | checkoutStep (st : CheckoutState) :
      Reachable st → Reachable (checkout st).2

/-- Sample catalog product used to exercise the cart model. -/
def sampleProduct : Product :=
  ⟨"p1", "UNIFACTOR Kids BlueBell T-Shirt", "Clothing", 100, 4, "img1"⟩

/-- A second sample catalog product. -/
def sampleProductB : Product :=
  ⟨"p2", "YONEX Smash Badminton Racquet", "Sports", 50, 5, "img2"⟩

/-- A cart line with two units of `sampleProduct`. -/
def sampleItemA : CartItem := ⟨"p1", 2, sampleProduct⟩

/-- A cart line with one unit of `sampleProductB`. -/
def sampleItemB : CartItem := ⟨"p2", 1, sampleProductB⟩

/-- A user with an empty saved-address collection (the legacy field holds
the sentinel). -/
def noAddrUser : User :=
  ⟨1, "crio-user", "crio-user@gmail.com", "criouser123", 500,
   "ADDRESS_NOT_SET", some []⟩

/-- Whether a handler outcome is the 403 Forbidden rejection. -/
def isForbidden {α : Type} : Except ApiError α → Bool
  | .error (.forbidden _) => true
  | _ => false

/-- A stored user ("alice") with identifier 1. -/
def aliceUser : User :=
  ⟨1, "Alice", "alice@example.com", "alicepw12", 500,
   "ADDRESS_NOT_SET", some []⟩

/-- A user record carrying the same identifier as `aliceUser` but a
different email — the pair separates an id-based ownership check from an
email-based one. -/
def bobSameId : User :=
  ⟨1, "Bob", "bob@example.com", "bobpassw1", 500, "ADDRESS_NOT_SET", some []⟩

/-- A stored user ("bob") with identifier 2, distinct from `aliceUser`
in both id and email. -/
def bobUser : User :=
  ⟨2, "Bob", "bob@example.com", "bobpassw1", 500, "ADDRESS_NOT_SET", some []⟩

/-- A user who owns an empty saved-address collection, used to exercise
`addAddress`. -/
def carolUser : User :=
  ⟨3, "Carol", "carol@example.com", "carolpw99", 500,
   "ADDRESS_NOT_SET", some []⟩

/-- A user owning two saved addresses with distinct identifiers, used to
exercise `deleteAddress`. -/
def daveUser : User :=
  ⟨4, "Dave", "dave@example.com", "davepw123", 500, "ADDRESS_NOT_SET",
   some [⟨11, "14 Main Street, Springfield, USA"⟩,
         ⟨12, "99 Second Avenue, Metropolis, USA"⟩]⟩

/-- A registration input whose email needs trimming and lowercasing. -/
def rawEve : User :=
  ⟨5, "Eve", " Eve@Example.COM ", "evepw1234", 500, "ADDRESS_NOT_SET", none⟩

/-- The document `insertUser` stores for `rawEve`: the schema setters
have normalised the email. -/
def storedEve : User :=
  ⟨5, "Eve", "eve@example.com", "evepw1234", 500, "ADDRESS_NOT_SET", none⟩

/-- Modelled from the spec: the user collections reachable by
registration — the store starts empty and grows only by `insertUser`
saves that the unique email index accepts (the register service is not
in the provided sources; the schema constraints it runs under are
embedded in `insertUser`). -/
inductive ReachableDb : List User → Prop
  | nil : ReachableDb []
  | insert (db : List User) (u : User) (db2 : List User) :
      ReachableDb db → insertUser db u = .ok db2 → ReachableDb db2

end QKart

namespace QKart

/- ## Helper lemmas -/

/-- A `foldl` with an additive step is the accumulator plus the sum of the
mapped list. -/
theorem foldl_add_eq_sum (f : CartItem → Int) (l : List CartItem) (a : Int) :
    l.foldl (fun t i => t + f i) a = a + (l.map f).sum := by
  induction l generalizing a with
  | nil => simp
  | cons x xs ih => simp [ih, add_assoc]

/-- Unfolding: `calculateTotal` is the sum of cost-times-quantity over the lines. -/
theorem calculateTotal_eq_sum (items : List CartItem) :
    calculateTotal items
      = (items.map (fun i => i.product.cost * i.quantity)).sum := by
  cases items with
  | nil => rfl
  | cons x xs =>
    simpa [calculateTotal] using
      foldl_add_eq_sum (fun i => i.product.cost * i.quantity) (x :: xs) 0

/- ## C3 -/

/-- C3: `calculateTotal` is a pure function equal to the sum over cart
items of `product.cost * item.quantity`; it returns 0 for an empty cart,
is never negative when every line has positive cost and positive
quantity, and is order-independent: permuted item lists have equal
totals. -/
theorem calculateTotal_spec :
    (∀ items : List CartItem,
        calculateTotal items
          = (items.map (fun i => i.product.cost * i.quantity)).sum) ∧
    calculateTotal [] = 0 ∧
    (∀ items : List CartItem,
        (∀ i ∈ items, 0 < i.product.cost ∧ 0 < i.quantity) →
        0 ≤ calculateTotal items) ∧
    (∀ l₁ l₂ : List CartItem, l₁.Perm l₂ →
        calculateTotal l₁ = calculateTotal l₂) := by
  refine ⟨calculateTotal_eq_sum, rfl, ?_, ?_⟩
  · intro items h
    rw [calculateTotal_eq_sum]
    apply List.sum_nonneg
    intro x hx
    simp only [List.mem_map] at hx
    obtain ⟨i, hi, rfl⟩ := hx
    exact mul_nonneg (le_of_lt (h i hi).1) (le_of_lt (h i hi).2)
  · intro l₁ l₂ hperm
    rw [calculateTotal_eq_sum, calculateTotal_eq_sum]
    exact List.Perm.sum_eq (hperm.map _)

/-- C3 witness: the nonnegativity and order-independence parts of
`calculateTotal_spec` at a concrete two-line cart. -/
theorem calculateTotal_spec_witness :
    0 ≤ calculateTotal [sampleItemA, sampleItemB] ∧
    calculateTotal [sampleItemA, sampleItemB]
      = calculateTotal [sampleItemB, sampleItemA] :=
  ⟨calculateTotal_spec.2.2.1 _ (by decide),
   calculateTotal_spec.2.2.2 _ _ (by decide)⟩

/- ## Checkout case analysis -/

/-- Every checkout run either rejects and returns the state unchanged, or
debits exactly the computed total (which the balance covers) and empties
the cart. -/
theorem checkout_cases (st : CheckoutState) :
    (∃ r, checkout st = (.rejected r, st)) ∨
    (calculateTotal st.cart ≤ st.user.walletMoney ∧
     checkout st
       = (.success (st.user.walletMoney - calculateTotal st.cart),
          ⟨{ st.user with
               walletMoney := st.user.walletMoney - calculateTotal st.cart },
            []⟩)) := by
  unfold checkout
  by_cases h1 : st.cart.isEmpty
  · exact Or.inl ⟨.emptyCart, by simp [h1]⟩
  · by_cases h2 : hasSetNonDefaultAddress st.user
    · by_cases h3 : st.user.walletMoney < calculateTotal st.cart
      · exact Or.inl ⟨.insufficientBalance, by simp [h1, h2, h3]⟩
      · exact Or.inr ⟨not_lt.mp h3, by simp [h1, h2, h3]⟩
    · exact Or.inl ⟨.noAddress, by simp [h1, h2]⟩

/- ## C1 -/

/-- C1: checkout is all-or-nothing: a successful checkout debits
`walletMoney` by exactly the computed cart total, empties the cart, and
returns the post-commit balance; a rejected checkout leaves the wallet
and the cart exactly as they were. -/
theorem checkout_atomic (st : CheckoutState) :
    match checkout st with
    | (.rejected _, st2) => st2 = st
    | (.success w, st2) =>
        w = st.user.walletMoney - calculateTotal st.cart ∧
        st2 = ⟨{ st.user with walletMoney := w }, []⟩ := by
  rcases checkout_cases st with ⟨r, heq⟩ | ⟨hle, heq⟩ <;> simp [heq]

/- ## C2 -/

/-- C2 counterexample: the claim says every user with an empty
saved-address collection is rejected with `NoAddress`, but with an empty
cart the `EmptyCart` precondition fires first (spec §4.4 order, §8:
"Checkout with empty cart rejects with EmptyCart regardless of wallet
balance or address state"). -/
theorem checkout_noAddress_cex :
    noAddrUser.savedAddresses = [] ∧
    (checkout ⟨noAddrUser, []⟩).1 = .rejected .emptyCart ∧
    (checkout ⟨noAddrUser, []⟩).1 ≠ .rejected .noAddress := by decide

/-- C2 (amended): the "has a non-default address" precondition holds
exactly when the saved-address collection is non-empty; the legacy single
address field never affects it; and every user with an empty
saved-address collection and a *non-empty cart* is rejected with
`NoAddress`, the state unchanged. -/
theorem hasSetNonDefaultAddress_spec :
    (∀ u : User,
        hasSetNonDefaultAddress u = true ↔ u.savedAddresses ≠ []) ∧
    (∀ (u : User) (legacy : String),
        hasSetNonDefaultAddress { u with address := legacy }
          = hasSetNonDefaultAddress u) ∧
    (∀ st : CheckoutState, st.cart ≠ [] → st.user.savedAddresses = [] →
        checkout st = (.rejected .noAddress, st)) := by
  refine ⟨?_, ?_, ?_⟩
  · intro u
    unfold hasSetNonDefaultAddress User.savedAddresses
    cases u.addresses with
    | none => simp
    | some l => cases l <;> simp
  · intro u legacy; rfl
  · intro st hc hs
    have h2 : hasSetNonDefaultAddress st.user = false := by
      unfold hasSetNonDefaultAddress
      unfold User.savedAddresses at hs
      cases h : st.user.addresses with
      | none => rfl
      | some l => rw [h] at hs; simp only [Option.getD_some] at hs; simp [hs]
    have h1 : st.cart.isEmpty = false := by
      cases h : st.cart with
      | nil => exact absurd h hc
      | cons x xs => rfl
    unfold checkout
    simp [h1, h2]

/-- C2 witness: `hasSetNonDefaultAddress_spec` at a concrete user with an
empty collection and a concrete non-empty cart. -/
theorem hasSetNonDefaultAddress_spec_witness :
    (hasSetNonDefaultAddress noAddrUser = true
       ↔ noAddrUser.savedAddresses ≠ []) ∧
    checkout ⟨noAddrUser, [sampleItemA]⟩
      = (.rejected .noAddress, ⟨noAddrUser, [sampleItemA]⟩) :=
  ⟨hasSetNonDefaultAddress_spec.1 noAddrUser,
   hasSetNonDefaultAddress_spec.2.2 ⟨noAddrUser, [sampleItemA]⟩
     (by decide) (by decide)⟩

/- ## C10 -/

/-- C10: for an existing user whose record matches the authenticated
caller, listing addresses always succeeds with the saved-address list;
when the collection is absent or empty it returns the empty list rather
than an error or an absent field. -/
theorem getAddresses_spec (user caller : User)
    (hown : user._id = caller._id) :
    getAddresses (some user) caller = .ok user.savedAddresses ∧
    (user.addresses = none ∨ user.addresses = some [] →
        getAddresses (some user) caller = .ok []) := by
  constructor
  · simp [getAddresses, hown]
  · intro h
    have hs : user.savedAddresses = [] := by
      rcases h with h | h <;> simp [User.savedAddresses, h]
    simp [getAddresses, hown, hs]

/-- C10 witness: `getAddresses_spec` at a concrete user whose
`addresses` field is absent. -/
theorem getAddresses_spec_witness :
    getAddresses (some storedEve) storedEve = .ok [] :=
  (getAddresses_spec storedEve storedEve rfl).2 (Or.inl rfl)

/- ## C4 -/

/-- C4 counterexample: `addAddress` validates the raw length, not the
trimmed length: a 20-character text whose trimmed length is 19 is
accepted (and stored trimmed, i.e. 19 characters long), where the claim
demands a `ValidationError`. -/
theorem addAddress_trim_cex :
    (jsTrim "aaaaaaaaaaaaaaaaaaa ").length < 20 ∧
    addAddress (some carolUser) carolUser 7 "aaaaaaaaaaaaaaaaaaa "
      = .ok { carolUser with
                addresses := some [⟨7, "aaaaaaaaaaaaaaaaaaa"⟩] } := by
  exact ⟨by decide, rfl⟩

/-- C4 (amended): for the owning, existing user, `addAddress` succeeds
and appends a new Address exactly when the *raw* (untrimmed) text length
is at least 20 (the stored text is then trimmed by the schema); for raw
length below 20 — in particular raw length 19 — it fails with a
`ValidationError` and, since the handler throws before any save, the
collection is unchanged. -/
theorem addAddress_spec (user caller : User) (newId : Nat) (text : String)
    (hown : user._id = caller._id) :
    (20 ≤ text.length →
        addAddress (some user) caller newId text
          = .ok { user with
                    addresses :=
                      some (user.savedAddresses ++ [⟨newId, jsTrim text⟩]) }) ∧
    (text.length < 20 →
        addAddress (some user) caller newId text
          = .error
              (.badRequest "Address should be greater than 20 characters")) := by
  constructor
  · intro h
    simp [addAddress, hown, Nat.not_lt.mpr h]
  · intro h
    simp [addAddress, hown, h]

/-- C4 witness: `addAddress_spec` at a 29-character and a 19-character
text for a concrete owning user. -/
theorem addAddress_spec_witness :
    addAddress (some carolUser) carolUser 9 "221B Baker Street, London, UK"
      = .ok { carolUser with
                addresses :=
                  some (carolUser.savedAddresses
                        ++ [⟨9, jsTrim "221B Baker Street, London, UK"⟩]) } ∧
    addAddress (some carolUser) carolUser 9 "19 chars exactly!!!"
      = .error (.badRequest "Address should be greater than 20 characters") :=
  ⟨(addAddress_spec carolUser carolUser 9 "221B Baker Street, London, UK"
      rfl).1 (by decide),
   (addAddress_spec carolUser carolUser 9 "19 chars exactly!!!"
      rfl).2 (by decide)⟩

/- ## C5 -/

/-- A 403 rejection is `isForbidden`; every other outcome is not. -/
theorem isForbidden_ok {α : Type} (a : α) :
    isForbidden (.ok a) = false := rfl

/-- A 404 rejection is not `isForbidden`. -/
theorem isForbidden_notFound {α : Type} (m : String) :
    isForbidden (.error (.notFound m) : Except ApiError α) = false := rfl

/-- A 400 rejection is not `isForbidden`. -/
theorem isForbidden_badRequest {α : Type} (m : String) :
    isForbidden (.error (.badRequest m) : Except ApiError α) = false := rfl

/-- The 403 rejection is `isForbidden`. -/
theorem isForbidden_forbidden {α : Type} (m : String) :
    isForbidden (.error (.forbidden m) : Except ApiError α) = true := rfl

/-- C5 counterexample: `getAddresses` authorises by record id, not by
email: with an authenticated caller and a target record that carry the
same id but different emails, the claim demands Forbidden, yet the
request succeeds. -/
theorem ownership_email_cex :
    aliceUser.email ≠ bobSameId.email ∧
    getAddresses (some bobSameId) aliceUser = .ok [] := by
  exact ⟨by decide, rfl⟩

/-- C5 (amended): `getUser` and `setAddress` compare the caller's email
claim against the record's email, while `getAddresses`, `addAddress` and
`deleteAddress` compare raw record ids; provided the caller and the
target are records of one store in which ids and emails each determine
the record, every one of the five handlers fails Forbidden exactly when
the caller's email differs from the target record's email. -/
theorem ownership_checks (db : List User)
    (hid : ∀ u ∈ db, ∀ v ∈ db, u._id = v._id → u = v)
    (hem : ∀ u ∈ db, ∀ v ∈ db, u.email = v.email → u = v)
    (c t : User) (hc : c ∈ db) (ht : t ∈ db)
    (qAddress : Bool) (newId : Nat) (text : String) (addressId : Nat) :
    (isForbidden (getUser (some t) c qAddress) = true ↔ t.email ≠ c.email) ∧
    (isForbidden (setAddress (some t) c text) = true ↔ t.email ≠ c.email) ∧
    (isForbidden (getAddresses (some t) c) = true ↔ t.email ≠ c.email) ∧
    (isForbidden (addAddress (some t) c newId text) = true
       ↔ t.email ≠ c.email) ∧
    (isForbidden (deleteAddress (some t) c addressId) = true
       ↔ t.email ≠ c.email) := by
  have hemq : t._id = c._id → t.email = c.email :=
    fun h => congrArg User.email (hid t ht c hc h)
  have hidq : t.email = c.email → t._id = c._id :=
    fun h => congrArg User._id (hem t ht c hc h)
  refine ⟨?_, ?_, ?_, ?_, ?_⟩
  · by_cases h : t.email = c.email
    · refine iff_of_false ?_ (not_not_intro h)
      cases qAddress <;> simp [getUser, isForbidden, h]
    · exact iff_of_true (by simp [getUser, isForbidden, h]) h
  · by_cases h : t.email = c.email
    · exact iff_of_false (by simp [setAddress, isForbidden, h])
        (not_not_intro h)
    · exact iff_of_true (by simp [setAddress, isForbidden, h]) h
  · by_cases h : t._id = c._id
    · exact iff_of_false (by simp [getAddresses, isForbidden, h])
        (not_not_intro (hemq h))
    · exact iff_of_true (by simp [getAddresses, isForbidden, h])
        (fun heq => h (hidq heq))
  · by_cases h : t._id = c._id
    · refine iff_of_false ?_ (not_not_intro (hemq h))
      by_cases h2 : text.length < 20 <;> simp [addAddress, isForbidden, h, h2]
    · exact iff_of_true (by simp [addAddress, isForbidden, h])
        (fun heq => h (hidq heq))
  · by_cases h : t._id = c._id
    · refine iff_of_false ?_ (not_not_intro (hemq h))
      cases hsp : spliceById t.savedAddresses addressId <;>
        simp [deleteAddress, isForbidden, h, hsp]
    · exact iff_of_true (by simp [deleteAddress, isForbidden, h])
        (fun heq => h (hidq heq))

/-- C5 witness: `ownership_checks` over the two-user store
`[aliceUser, bobUser]`, with alice calling for bob's addresses. -/
theorem ownership_checks_witness :
    isForbidden (getAddresses (some bobUser) aliceUser) = true :=
  (ownership_checks [aliceUser, bobUser] (by decide) (by decide)
      aliceUser bobUser (by decide) (by decide)
      false 0 "" 0).2.2.1.mpr (by decide)

/- ## C6 -/

/-- Unfolding `spliceById` on a cons: remove the head when its id matches, else
recurse. -/
theorem spliceById_cons (a : Address) (l : List Address) (aid : Nat) :
    spliceById (a :: l) aid =
      if a._id = aid then some l
      else (spliceById l aid).map (List.cons a) := by
  unfold spliceById
  rw [List.findIdx?_cons]
  by_cases h : a._id = aid
  · simp [h]
  · rw [if_neg (by simpa using h), List.findIdx?_succ]
    cases hf : l.findIdx? (fun b => b._id == aid) with
    | none => simp [h]
    | some i => simp [h]

/-- Lemma: `spliceById` misses exactly when no entry carries the identifier. -/
theorem spliceById_eq_none_iff (l : List Address) (aid : Nat) :
    spliceById l aid = none ↔ ∀ a ∈ l, a._id ≠ aid := by
  induction l with
  | nil => simp [spliceById]
  | cons x xs ih =>
    rw [spliceById_cons]
    by_cases h : x._id = aid
    · simp [h]
    · simp [h, ih]

/-- Within a pairwise-distinct-id list, the id determines the entry. -/
theorem nodupIds_inj (l : List Address)
    (h : l.Pairwise (fun x y => x._id ≠ y._id)) :
    ∀ b ∈ l, ∀ c ∈ l, b._id = c._id → b = c := by
  induction l with
  | nil => intro b hb; cases hb
  | cons x xs ih =>
    rw [List.pairwise_cons] at h
    intro b hb c hc heq
    rcases List.mem_cons.mp hb with rfl | hb2 <;>
      rcases List.mem_cons.mp hc with rfl | hc2
    · rfl
    · exact absurd heq (h.1 c hc2)
    · exact absurd heq.symm (h.1 b hb2)
    · exact ih h.2 b hb2 c hc2 heq

/-- Pairwise-distinct ids give pairwise-distinct entries. -/
theorem nodup_of_nodupIds (l : List Address)
    (h : l.Pairwise (fun x y => x._id ≠ y._id)) : l.Nodup :=
  List.Pairwise.imp (fun hne he => hne (congrArg Address._id he)) h

/-- When the entry with the sought id is present (ids pairwise
distinct), `spliceById` removes exactly that entry. -/
theorem spliceById_mem (l : List Address) (a : Address)
    (hnodup : l.Pairwise (fun x y => x._id ≠ y._id)) (ha : a ∈ l) :
    spliceById l a._id = some (l.erase a) := by
  induction l with
  | nil => cases ha
  | cons x xs ih =>
    rw [List.pairwise_cons] at hnodup
    rw [spliceById_cons]
    rcases List.mem_cons.mp ha with rfl | hmem
    · rw [if_pos rfl, List.erase_cons_head]
    · have hx : x._id ≠ a._id := hnodup.1 a hmem
      have hne : ¬(x == a) := by
        simp only [beq_iff_eq]
        exact fun he => hx (congrArg Address._id he)
      rw [if_neg hx, ih hnodup.2 hmem, List.erase_cons_tail hne]
      rfl

/-- C6: `deleteAddress` removes an address by its stable identifier: for
the owning, existing user (address ids pairwise distinct), when no entry
carries `addressId` it fails with NotFound (the handler throws before
any save, so the collection is unchanged); when the entry exists,
exactly that entry is removed, and a second call with the same
identifier returns NotFound rather than crashing. -/
theorem deleteAddress_spec (user caller : User) (addressId : Nat)
    (hown : user._id = caller._id)
    (hids : user.savedAddresses.Pairwise (fun x y => x._id ≠ y._id)) :
    ((∀ a ∈ user.savedAddresses, a._id ≠ addressId) →
        deleteAddress (some user) caller addressId
          = .error (.notFound "Address to delete was not found")) ∧
    (∀ a ∈ user.savedAddresses, a._id = addressId →
        deleteAddress (some user) caller addressId
          = .ok { user with
                    addresses := some (user.savedAddresses.erase a) } ∧
        deleteAddress
            (some { user with
                      addresses := some (user.savedAddresses.erase a) })
            caller addressId
          = .error (.notFound "Address to delete was not found")) := by
  constructor
  · intro hnone
    have hsp : spliceById user.savedAddresses addressId = none :=
      (spliceById_eq_none_iff _ _).mpr hnone
    simp [deleteAddress, hown, hsp]
  · intro a ha heq
    subst heq
    have hsp := spliceById_mem user.savedAddresses a hids ha
    constructor
    · simp [deleteAddress, hown, hsp]
    · have h2 : ∀ b ∈ user.savedAddresses.erase a, b._id ≠ a._id := by
        intro b hb hbid
        have hbl : b ∈ user.savedAddresses := List.mem_of_mem_erase hb
        have hba : b = a := nodupIds_inj _ hids b hbl a ha hbid
        subst hba
        exact (nodup_of_nodupIds _ hids).not_mem_erase hb
      have hsp2 : spliceById (user.savedAddresses.erase a) a._id = none :=
        (spliceById_eq_none_iff _ _).mpr h2
      unfold User.savedAddresses at hsp2
      simp [deleteAddress, hown, User.savedAddresses, hsp2]

/-- C6 witness: `deleteAddress_spec` on a concrete user with two
addresses: deleting id 11 removes exactly that entry; deleting the
absent id 99 returns NotFound. -/
theorem deleteAddress_spec_witness :
    deleteAddress (some daveUser) daveUser 11
      = .ok { daveUser with
                addresses := some (daveUser.savedAddresses.erase
                  ⟨11, "14 Main Street, Springfield, USA"⟩) } ∧
    deleteAddress (some daveUser) daveUser 99
      = .error (.notFound "Address to delete was not found") :=
  ⟨((deleteAddress_spec daveUser daveUser 11 rfl (by decide)).2
      ⟨11, "14 Main Street, Springfield, USA"⟩ (by decide) rfl).1,
   (deleteAddress_spec daveUser daveUser 99 rfl (by decide)).1 (by decide)⟩

/- ## C7 -/

/-- C7 counterexample: `isEmailTaken` swallows a store fault: its
`catch` clause returns `false`, byte-for-byte the same answer as a
successful read that found no user — the fault is reported as "email not
taken" instead of surfacing as a server fault. -/
theorem isEmailTaken_fault_cex :
    isEmailTaken (.error "connection lost") = false ∧
    isEmailTaken (.ok none) = false := ⟨rfl, rfl⟩

/-- C7 (amended): `isEmailTaken` silently downgrades every store-level
fault to the ordinary boolean `false` ("email not taken"); only on a
successful read does it report whether a matching document was found. -/
theorem isEmailTaken_spec :
    (∀ msg : String, isEmailTaken (.error msg) = false) ∧
    (∀ r : Option User, isEmailTaken (.ok r) = r.isSome) := by
  constructor
  · intro msg; rfl
  · intro r; cases r with
    | none => rfl
    | some u => rfl

/- ## C9 -/

/-- C9 counterexample: with "eve@example.com" stored, the email-taken
check queried with the case-variant "Eve@example.com" answers false
although a user with that email, compared case-insensitively, exists:
`findOne({email})` matches the query string exactly, and the schema only
lowercases on the write path. -/
theorem isEmailTaken_case_cex :
    normalizeEmail "Eve@example.com" = storedEve.email ∧
    isEmailTaken (.ok (findOneByEmail [storedEve] "Eve@example.com"))
      = false := ⟨rfl, rfl⟩

/-- C9 (amended): stored emails are write-path normalised and exactly
unique: in every reachable user collection no two records share a stored
email, and inserting a user whose normalised email collides with a
stored one — in particular any case-variant — is rejected by the unique
index; the email-taken check itself, however, is an exact string match:
it answers true precisely when some record's stored email equals the
query string as given. -/
theorem emailUniqueness_spec (db : List User) (h : ReachableDb db) :
    db.Pairwise (fun u v => u.email ≠ v.email) ∧
    (∀ u ∈ db, ∀ v : User, normalizeEmail v.email = u.email →
        insertUser db v = .error "E11000 duplicate key error") ∧
    (∀ q : String,
        isEmailTaken (.ok (findOneByEmail db q)) = true
          ↔ ∃ u ∈ db, u.email = q) := by
  refine ⟨?_, ?_, ?_⟩
  · induction h with
    | nil => exact List.Pairwise.nil
    | insert db u db2 hdb heq ih =>
      simp only [insertUser] at heq
      by_cases hc : db.any (fun v => v.email == normalizeEmail u.email)
      · rw [if_pos hc] at heq
        cases heq
      · rw [if_neg hc] at heq
        cases heq
        simp only [List.any_eq_true, beq_iff_eq, not_exists, not_and] at hc
        refine List.pairwise_append.mpr ⟨ih, List.pairwise_singleton _ _, ?_⟩
        intro a ha b hb
        rw [List.mem_singleton] at hb
        subst hb
        exact hc a ha
  · intro u hu v hvn
    have hc : db.any (fun w => w.email == normalizeEmail v.email) = true := by
      rw [List.any_eq_true]
      exact ⟨u, hu, by simp [hvn]⟩
    simp [insertUser, hc]
  · intro q
    have hrw : isEmailTaken (.ok (findOneByEmail db q))
        = (db.find? (fun u => u.email == q)).isSome := by
      unfold isEmailTaken findOneByEmail
      cases db.find? (fun u => u.email == q) with
      | none => rfl
      | some u => rfl
    rw [hrw]
    simp [List.find?_isSome]

/-- C9 witness: `emailUniqueness_spec` over the one-user store created
by registering `rawEve`: a case-variant re-registration is rejected by
the unique index, and the exact-match check finds the stored lowercase
email. -/
theorem emailUniqueness_spec_witness :
    insertUser [storedEve] rawEve = .error "E11000 duplicate key error" ∧
    isEmailTaken (.ok (findOneByEmail [storedEve] "eve@example.com"))
      = true := by
  have hdb : ReachableDb [storedEve] :=
    ReachableDb.insert [] rawEve [storedEve] ReachableDb.nil rfl
  exact ⟨(emailUniqueness_spec [storedEve] hdb).2.1 storedEve
           (List.mem_singleton.mpr rfl) rawEve rfl,
         ((emailUniqueness_spec [storedEve] hdb).2.2 "eve@example.com").mpr
           ⟨storedEve, List.mem_singleton.mpr rfl, rfl⟩⟩

/- ## C8 -/

/-- Inverting a successful `setAddress`: only the legacy field changed. -/
theorem setAddress_ok_inv {user caller : User} {text : String}
    {u : User} {s : String}
    (h : setAddress (some user) caller text = .ok (u, s)) :
    u = { user with address := text } := by
  simp only [setAddress] at h
  by_cases hc : user.email ≠ caller.email
  · simp [hc] at h
  · simp [hc] at h
    exact h.1.symm

/-- Inverting a successful `addAddress`: only the collection changed. -/
theorem addAddress_ok_inv {user caller : User} {newId : Nat}
    {text : String} {u : User}
    (h : addAddress (some user) caller newId text = .ok u) :
    u = { user with
            addresses :=
              some (user.savedAddresses ++ [⟨newId, jsTrim text⟩]) } := by
  simp only [addAddress] at h
  by_cases hc : user._id ≠ caller._id
  · simp [hc] at h
  · by_cases h2 : text.length < 20
    · simp [hc, h2] at h
    · simp [hc, h2] at h
      exact h.symm

/-- Inverting a successful `deleteAddress`: only the collection
changed. -/
theorem deleteAddress_ok_inv {user caller : User} {addressId : Nat}
    {u : User}
    (h : deleteAddress (some user) caller addressId = .ok u) :
    ∃ l, u = { user with addresses := some l } := by
  simp only [deleteAddress] at h
  by_cases hc : user._id ≠ caller._id
  · simp [hc] at h
  · simp only [hc, if_false, ite_false, if_neg hc] at h
    cases hsp : spliceById user.savedAddresses addressId with
    | none => rw [hsp] at h; cases h
    | some l =>
        rw [hsp] at h
        simp at h
        exact ⟨l, h.symm⟩

/-- C8: `walletMoney` is non-negative for every user in every reachable
state — only the Checkout Engine mutates it, and it debits at most the
balance — and a newly created user who does not specify it gets the
schema default 500. -/
theorem walletMoney_invariant :
    (∀ st : CheckoutState, Reachable st → 0 ≤ st.user.walletMoney) ∧
    (∀ (uid : Nat) (name email password : String),
        (createUser uid name email password).walletMoney = 500) := by
  constructor
  · intro st h
    induction h with
    | created uid name email password =>
        show (0 : Int) ≤ 500
        norm_num
    | cartStep st cart hr ih => exact ih
    | legacyAddressStep st caller text u s hr heq ih =>
        have hu := setAddress_ok_inv heq
        subst hu
        exact ih
    | addAddressStep st caller newId text u hr heq ih =>
        have hu := addAddress_ok_inv heq
        subst hu
        exact ih
    | deleteAddressStep st caller addressId u hr heq ih =>
        obtain ⟨l, rfl⟩ := deleteAddress_ok_inv heq
        exact ih
    | checkoutStep st hr ih =>
        rcases checkout_cases st with ⟨r, hcq⟩ | ⟨hle, hcq⟩
        · rw [hcq]; exact ih
        · rw [hcq]
          exact sub_nonneg.mpr hle
  · intro uid name email password
    rfl

/-- C8 witness: the invariant at the state of a concrete freshly
registered user, together with their default balance. -/
theorem walletMoney_invariant_witness :
    0 ≤ (CheckoutState.mk
          (createUser 8 "Fred" "fred@example.com" "fredpw12") []).user.walletMoney ∧
    (createUser 8 "Fred" "fred@example.com" "fredpw12").walletMoney = 500 :=
  ⟨walletMoney_invariant.1 _
     (Reachable.created 8 "Fred" "fred@example.com" "fredpw12"),
   walletMoney_invariant.2 8 "Fred" "fred@example.com" "fredpw12"⟩

end QKart
